import Mathlib

/-!
Shallow embedding of the ROI-Insight-Pro dashboard (src/app.py).

The program is a synthetic data generator plus a metrics-derivation
pipeline over the generated table.  Monetary quantities are modelled as
rationals (the Python floats), and every call to `np.random.uniform` is
modelled as an explicit input: the generator takes, for each client, a
`ClientParams` record (the three per-client draws) and, for each
(client, month) pair, a `MonthDraws` record (the three per-month draws).
The predicates `ValidParams` / `ValidDraws` record the half-open ranges
the `np.random.uniform` calls draw from.

A division performed by the Python code *without* a zero-guard is
numpy float division: a zero denominator yields a non-finite value
(`inf`/`nan`) and no exception.  We model such a division with `pyDiv`,
returning `none` for the non-finite outcome.  A division the code guards
with an explicit `if` is modelled by the same conditional on rationals.

`pandas` behaviour that the code relies on is modelled as follows:
`df.groupby("Client_Name")` enumerates groups sorted by the key
(lexicographic string order, `sort=True` default), modelled by
`groupbyClients`; `sort_values(k)` is a stable ascending sort and
`sort_values(k, ascending=False)` a stable descending sort — pandas
`nargsort` reverses the values before and the indexer after the
ascending argsort, so the two reversals cancel on ties and tied rows
keep their original relative order (pandas issue 6399; on the small
frames at hand numpy's underlying sort is the stable insertion sort) —
both modelled by the stable `mergeSort`, with the flipped comparator
for the descending case;
`Series.unique()` preserves first-appearance order (`uniqueFirst`);
`@st.cache_data` memoizes the no-argument generator for the process
lifetime, modelled by explicit state passing in `generate_data_cached`.
-/

namespace ROIInsight

/-- The three per-client random parameters drawn at the top of the client
loop in `generate_data` (`base_gmv`, `growth_trend`, `cogs_rate`). -/
structure ClientParams where
  base_gmv : ℚ
  growth_trend : ℚ
  cogs_rate : ℚ
deriving Repr, DecidableEq, Inhabited

/-- The three per-(client, month) random draws inside the month loop of
`generate_data` (`noise`, the `baseline_gmv` factor, the `ad_spend`
fraction). -/
structure MonthDraws where
  noise : ℚ
  baseline_factor : ℚ
  ad_rate : ℚ
deriving Repr, DecidableEq, Inhabited

/-- One row of the generated table (the dict appended to `data` in
`generate_data`, lines 51-64 of src/app.py). -/
structure Record where
  client_name : String
  month : String
  month_index : ℕ
  gmv : ℚ
  baseline_gmv : ℚ
  ad_spend : ℚ
  agency_fee : ℚ
  cogs : ℚ
  platform_comm : ℚ
  total_investment : ℚ
  net_profit : ℚ
  roi : ℚ
deriving Repr, DecidableEq, Inhabited

/-- The fixed list of 20 client names (src/app.py lines 17-23). -/
def clients : List String :=
  ["Tasty Wok Express", "Burger Kingpin", "Sushi Zen", "Pizza Heaven",
   "Taco Fiesta", "Curry House", "Noodle Bar 99", "Salad Greens",
   "Wings & Things", "Breakfast Club", "Mama's Pasta", "BBQ Smokehouse",
   "Vegan Vibes", "Donut Delights", "Smoothie Station", "Grill Master",
   "Seafood Shack", "Kebab Corner", "Dim Sum Daily", "Falafel Factory"]

/-- The 12 month labels (src/app.py line 25). -/
def months : List String :=
  ["Jan", "Feb", "Mar", "Apr", "May", "Jun",
   "Jul", "Aug", "Sep", "Oct", "Nov", "Dec"]

/-- `comm_rate = 0.20` (src/app.py line 33). -/
def comm_rate : ℚ := 0.20

/-- `agency_fee = 2500` (src/app.py line 34). -/
def agency_fee_const : ℚ := 2500

/-- The body of the month loop of `generate_data` (src/app.py lines
36-64): derive one `Record` for client `client` at month index `i` with
label `m`, from the client's parameters `p` and the month's draws `d`. -/
def mkRecord (client : String) (p : ClientParams) (i : ℕ) (m : String)
    (d : MonthDraws) : Record :=
  let trend_factor : ℚ := 1 + ((i : ℚ) / 11) * (p.growth_trend - 1)
  let gmv := p.base_gmv * trend_factor * d.noise
  let baseline_gmv := gmv * d.baseline_factor
  let ad_spend := gmv * d.ad_rate
  let total_investment := ad_spend + agency_fee_const
  let cogs := gmv * p.cogs_rate
  let comm := gmv * comm_rate
  let net_profit := gmv - cogs - comm - total_investment
  let roi := if 0 < total_investment then net_profit / total_investment * 100 else 0
  { client_name := client, month := m, month_index := i, gmv := gmv,
    baseline_gmv := baseline_gmv, ad_spend := ad_spend,
    agency_fee := agency_fee_const, cogs := cogs, platform_comm := comm,
    total_investment := total_investment, net_profit := net_profit,
    roi := roi }

/-- `generate_data` (src/app.py lines 16-66): for each client (with its
position `ci` in the client list) and each month (index `i`), emit the
derived record.  The random source is the explicit pair of draw
functions `cp` (per client) and `md` (per client and month). -/
def generate_data (cp : ℕ → ClientParams) (md : ℕ → ℕ → MonthDraws) :
    List Record :=
  clients.enum.flatMap fun ci =>
    months.enum.map fun im => mkRecord ci.2 (cp ci.1) im.1 im.2 (md ci.1 im.1)

/-- The ranges of the three per-client `np.random.uniform` calls
(src/app.py lines 30-32). -/
def ValidParams (p : ClientParams) : Prop :=
  15000 ≤ p.base_gmv ∧ p.base_gmv < 80000 ∧
  0.95 ≤ p.growth_trend ∧ p.growth_trend < 1.2 ∧
  0.35 ≤ p.cogs_rate ∧ p.cogs_rate < 0.45

/-- The ranges of the three per-month `np.random.uniform` calls
(src/app.py lines 38, 41, 42). -/
def ValidDraws (d : MonthDraws) : Prop :=
  0.9 ≤ d.noise ∧ d.noise < 1.1 ∧
  0.6 ≤ d.baseline_factor ∧ d.baseline_factor < 0.8 ∧
  0.08 ≤ d.ad_rate ∧ d.ad_rate < 0.15

instance (p : ClientParams) : Decidable (ValidParams p) := by
  unfold ValidParams; infer_instance

instance (d : MonthDraws) : Decidable (ValidDraws d) := by
  unfold ValidDraws; infer_instance

/-! ### The memoized generator (`@st.cache_data`, src/app.py line 15) -/

/-- Process state for the cached generator: how many raw (uncached)
generations have run so far (each one consumes a fresh slice of the
random source) and the memoized table, if any. -/
structure GenState where
  calls : ℕ
  cache : Option (List Record)

/-- `generate_data` under `@st.cache_data`: the random source is indexed
by the raw-call counter, so an uncached call draws fresh randomness; a
cached call returns the stored table and leaves the state unchanged. -/
def generate_data_cached (cp : ℕ → ℕ → ClientParams)
    (md : ℕ → ℕ → ℕ → MonthDraws) (s : GenState) : List Record × GenState :=
  match s.cache with
  | some t => (t, s)
  | none =>
      let t := generate_data (cp s.calls) (md s.calls)
      (t, { calls := s.calls + 1, cache := some t })

/-! ### The metrics derivation pipeline (src/app.py lines 78-208) -/

/-- numpy float division as performed by the unguarded divisions in the
pipeline: a zero denominator yields a non-finite value (`inf`/`nan`) —
modelled `none` — and raises no exception; otherwise the quotient. -/
def pyDiv (a b : ℚ) : Option ℚ := if b = 0 then none else some (a / b)

/-- `df["GMV"].sum()` (src/app.py line 80). -/
def total_gmv (t : List Record) : ℚ := (t.map Record.gmv).sum

/-- `df["Net_Profit"].sum()` (src/app.py line 81). -/
def total_profit (t : List Record) : ℚ := (t.map Record.net_profit).sum

/-- `df["Total_Investment"].sum()` (src/app.py line 82). -/
def total_invest (t : List Record) : ℚ := (t.map Record.total_investment).sum

/-- `weighted_roi = (total_profit / total_invest) * 100`
(src/app.py line 83) — an unguarded float division. -/
def weighted_roi (t : List Record) : Option ℚ :=
  (pyDiv (total_profit t) (total_invest t)).map (· * 100)

/-- The rows of one client, in table order
(`df[df["Client_Name"] == client]`). -/
def clientRows (t : List Record) (c : String) : List Record :=
  t.filter fun r => r.client_name = c

/-- Lexicographic comparison of character lists by code point. -/
def charsLe : List Char → List Char → Bool
  | [], _ => true
  | _ :: _, [] => false
  | a :: as, b :: bs => if a < b then true else if b < a then false else charsLe as bs

/-- Lexicographic string order, the order `pandas` sorts group keys in. -/
def strLe (a b : String) : Bool := charsLe a.data b.data

/-- `Series.unique()`: the distinct values in first-appearance order. -/
def uniqueFirst (t : List Record) : List String :=
  (t.map Record.client_name).foldl
    (fun acc n => if n ∈ acc then acc else acc ++ [n]) []

/-- The group keys of `df.groupby("Client_Name")` (src/app.py line 94):
the distinct client names sorted lexicographically (`sort=True` is the
`pandas` default), hence also the order of
`client_agg["Client_Name"].unique()` at line 124. -/
def groupbyClients (t : List Record) : List String :=
  (uniqueFirst t).mergeSort strLe

/-- `client_agg["Overall_ROI"]` for one client (src/app.py line 102):
`(sum Net_Profit / sum Total_Investment) * 100`, an unguarded float
division over the client's group. -/
def overallROI (t : List Record) (c : String) : Option ℚ :=
  (pyDiv ((clientRows t c).map Record.net_profit).sum
    ((clientRows t c).map Record.total_investment).sum).map (· * 100)

/-- `sort_values("Month_Index")` on one client's rows
(src/app.py lines 125, 159). -/
def sortByMonth (rows : List Record) : List Record :=
  rows.mergeSort fun a b => a.month_index ≤ b.month_index

/-- `c_data.iloc[-1]` (src/app.py line 161): the last row of the
client's rows after sorting by `Month_Index`. -/
def lastMonthRecord (t : List Record) (c : String) : Record :=
  (sortByMonth (clientRows t c)).getLastI

/-- `roi_mult = last_month['GMV'] / last_month['Total_Investment']`
(src/app.py line 171) — an unguarded float division. -/
def roi_mult (r : Record) : Option ℚ := pyDiv r.gmv r.total_investment

/-- One entry of `growth_list` (src/app.py line 131). -/
structure GrowthEntry where
  client_name : String
  profit_growth_pct : ℚ
  net_profit_total : ℚ
deriving Repr, DecidableEq, Inhabited

/-- The body of the leaderboard loop (src/app.py lines 125-131): sort
the client's rows by `Month_Index`, take the first and last `Net_Profit`,
and compute the growth percentage with the `first_profit != 0` guard. -/
def growthEntryFor (t : List Record) (c : String) : GrowthEntry :=
  let client_df := sortByMonth (clientRows t c)
  let first_profit := client_df.headI.net_profit
  let last_profit := client_df.getLastI.net_profit
  let growth_abs := last_profit - first_profit
  let growth_pct := if first_profit ≠ 0 then growth_abs / |first_profit| * 100 else 0
  { client_name := c, profit_growth_pct := growth_pct,
    net_profit_total := (client_df.map Record.net_profit).sum }

/-- `growth_list` (src/app.py lines 123-131), built over
`client_agg["Client_Name"].unique()` — the groupby (sorted) key order. -/
def growth_list (t : List Record) : List GrowthEntry :=
  (groupbyClients t).map (growthEntryFor t)

/-- `growth_df = pd.DataFrame(growth_list)
.sort_values("Profit_Growth_Pct", ascending=False).head(5)`
(src/app.py line 133): stable descending sort — tied entries keep their
`growth_list` order, per pandas `nargsort`'s double reversal — then the
first five. -/
def growth_df (t : List Record) : List GrowthEntry :=
  ((growth_list t).mergeSort
    fun a b => b.profit_growth_pct ≤ a.profit_growth_pct).take 5

/-- The `costs` mapping of the cost-structure donut
(src/app.py lines 193-199). -/
structure CostStructure where
  cogs : ℚ
  platform_comm : ℚ
  ad_spend : ℚ
  agency_fee : ℚ
  net_profit : ℚ
deriving Repr, DecidableEq

/-- `costs` (src/app.py lines 193-199): per-category sums over the
client's rows, with `Net Profit` clamped below at 0 for display. -/
def costs (rows : List Record) : CostStructure :=
  { cogs := (rows.map Record.cogs).sum
    platform_comm := (rows.map Record.platform_comm).sum
    ad_spend := (rows.map Record.ad_spend).sum
    agency_fee := (rows.map Record.agency_fee).sum
    net_profit := max 0 ((rows.map Record.net_profit).sum) }

/-- The growth-percentage formula as the specification words it:
`(last − first) / |first| × 100` when `first ≠ 0`, else `0`. -/
def growth_pct_spec (first last : ℚ) : ℚ :=
  if first = 0 then 0 else (last - first) / |first| * 100

end ROIInsight

namespace ROIInsight

/-! ### Concrete fixtures -/

/-- A constant per-client draw, inside all three sampling ranges. -/
def cp0 : ℕ → ClientParams := fun _ => ⟨20000, 1, 2/5⟩

/-- A constant per-month draw, inside all three sampling ranges. -/
def md0 : ℕ → ℕ → MonthDraws := fun _ _ => ⟨1, 7/10, 1/10⟩

/-- The first record of the table generated from `cp0`/`md0`. -/
def r0 : Record := mkRecord "Tasty Wok Express" (cp0 0) 0 "Jan" (md0 0 0)

lemma mem_of_head?_eq {α : Type _} {l : List α} {a : α} (h : l.head? = some a) :
    a ∈ l := by
  cases l with
  | nil => simp at h
  | cons b l =>
      simp only [List.head?_cons, Option.some.injEq] at h
      rcases h with rfl
      exact List.mem_cons_self b l

lemma r0_mem : r0 ∈ generate_data cp0 md0 := mem_of_head?_eq rfl

/-! ### C9 -/

/-- C9: within a single process, calling the data generator a second time
returns a table identical to the first call's result — the result is
memoized by `@st.cache_data` and not re-randomized, so two in-process
calls are equal. -/
theorem generate_data_cached_idempotent (cp : ℕ → ℕ → ClientParams)
    (md : ℕ → ℕ → ℕ → MonthDraws) (s : GenState) :
    (generate_data_cached cp md (generate_data_cached cp md s).2).1 =
      (generate_data_cached cp md s).1 := by
  unfold generate_data_cached
  rcases hc : s.cache with - | t <;> simp [hc]

/-! ### C5 -/

/-- C5: every row of the generated table satisfies the accounting
identities `total_investment = ad_spend + agency_fee`,
`net_profit = gmv − cogs − platform_comm − total_investment` and
`platform_comm = 0.20 × gmv` (exactly, in the rational model). -/
theorem generated_row_identities (cp : ℕ → ClientParams)
    (md : ℕ → ℕ → MonthDraws) (r : Record) (hr : r ∈ generate_data cp md) :
    r.total_investment = r.ad_spend + r.agency_fee ∧
    r.net_profit = r.gmv - r.cogs - r.platform_comm - r.total_investment ∧
    r.platform_comm = 0.20 * r.gmv := by
  simp only [generate_data, List.mem_flatMap, List.mem_map] at hr
  obtain ⟨ci, -, im, -, rfl⟩ := hr
  refine ⟨rfl, rfl, ?_⟩
  simp only [mkRecord, comm_rate]
  ring

/-- Witness for C5 at the concrete draws `cp0`/`md0`. -/
theorem generated_row_identities_witness :
    r0.total_investment = r0.ad_spend + r0.agency_fee ∧
    r0.net_profit = r0.gmv - r0.cogs - r0.platform_comm - r0.total_investment ∧
    r0.platform_comm = 0.20 * r0.gmv :=
  generated_row_identities cp0 md0 r0 r0_mem

/-! ### C6 -/

/-- C6: every generated table has exactly `20 × 12 = 240` rows, and for
each client of the fixed list the `month_index` values of that client's
rows, in emission order, are exactly `0, 1, ..., 11` — no gaps, no
duplicates, strictly increasing. -/
theorem generate_data_shape (cp : ℕ → ClientParams) (md : ℕ → ℕ → MonthDraws) :
    (generate_data cp md).length = 240 ∧
    ∀ c ∈ clients,
      (((generate_data cp md).filter fun r => r.client_name = c).map
        Record.month_index) = List.range 12 := by
  constructor
  · rfl
  · intro c hc
    fin_cases hc <;> rfl

/-- Witness for C6 at the concrete draws `cp0`/`md0` and client
"Sushi Zen". -/
theorem generate_data_shape_witness :
    (generate_data cp0 md0).length = 240 ∧
    (((generate_data cp0 md0).filter fun r => r.client_name = "Sushi Zen").map
      Record.month_index) = List.range 12 :=
  ⟨(generate_data_shape cp0 md0).1,
   (generate_data_shape cp0 md0).2 "Sushi Zen" (by decide)⟩

/-! ### C7 -/

lemma mkRecord_roi_eq (client : String) (p : ClientParams) (i : ℕ) (m : String)
    (d : MonthDraws) :
    (mkRecord client p i m d).roi =
      if 0 < (mkRecord client p i m d).total_investment then
        (mkRecord client p i m d).net_profit /
          (mkRecord client p i m d).total_investment * 100
      else 0 := rfl

/-- C7: for every record produced by the per-record derivation (the body
of the generator's month loop, hence every generated record and any
synthetic record run through it), `roi` equals
`net_profit / total_investment × 100` when `total_investment > 0` and
equals exactly `0` when `total_investment = 0`. -/
theorem roi_zero_guard (client : String) (p : ClientParams) (i : ℕ) (m : String)
    (d : MonthDraws) :
    (0 < (mkRecord client p i m d).total_investment →
      (mkRecord client p i m d).roi =
        (mkRecord client p i m d).net_profit /
          (mkRecord client p i m d).total_investment * 100) ∧
    ((mkRecord client p i m d).total_investment = 0 →
      (mkRecord client p i m d).roi = 0) := by
  rw [mkRecord_roi_eq]
  constructor
  · intro h
    rw [if_pos h]
  · intro h
    rw [if_neg]
    rw [h]
    exact lt_irrefl 0

/-- Parameters for the C7 witness: `gmv = 1`. -/
def p1 : ClientParams := ⟨1, 1, 0⟩

/-- Draws for the C7 witness, positive-investment branch. -/
def dPos : MonthDraws := ⟨1, 1, 0⟩

/-- Draws for the C7 witness, zero-investment branch
(`ad_spend = −2500` cancels the agency fee). -/
def dZero : MonthDraws := ⟨1, 1, -2500⟩

/-- Witness for C7: both branches at concrete records. -/
theorem roi_zero_guard_witness :
    (mkRecord "X" p1 0 "Jan" dPos).roi =
      (mkRecord "X" p1 0 "Jan" dPos).net_profit /
        (mkRecord "X" p1 0 "Jan" dPos).total_investment * 100 ∧
    (mkRecord "X" p1 0 "Jan" dZero).roi = 0 :=
  ⟨(roi_zero_guard "X" p1 0 "Jan" dPos).1
      (by norm_num [mkRecord, p1, dPos, agency_fee_const]),
   (roi_zero_guard "X" p1 0 "Jan" dZero).2
      (by norm_num [mkRecord, p1, dZero, agency_fee_const])⟩

end ROIInsight

namespace ROIInsight

/-! ### C2 -/

lemma mkRecord_gmv (client : String) (p : ClientParams) (i : ℕ) (m : String)
    (d : MonthDraws) :
    (mkRecord client p i m d).gmv =
      p.base_gmv * (1 + (i : ℚ) / 11 * (p.growth_trend - 1)) * d.noise := rfl

lemma mkRecord_baseline_gmv (client : String) (p : ClientParams) (i : ℕ)
    (m : String) (d : MonthDraws) :
    (mkRecord client p i m d).baseline_gmv =
      (mkRecord client p i m d).gmv * d.baseline_factor := rfl

/-- Core fact behind C2: with every draw inside its `np.random.uniform`
range, each generated record has `baseline_gmv < gmv` — the baseline is
`gmv` times a factor drawn from `[0.6, 0.8)`, and `gmv > 0`. -/
lemma baseline_lt_gmv (cp : ℕ → ClientParams) (md : ℕ → ℕ → MonthDraws)
    (hp : ∀ i, ValidParams (cp i)) (hd : ∀ i j, ValidDraws (md i j))
    (r : Record) (hr : r ∈ generate_data cp md) : r.baseline_gmv < r.gmv := by
  simp only [generate_data, List.mem_flatMap, List.mem_map] at hr
  obtain ⟨ci, -, im, him, rfl⟩ := hr
  obtain ⟨h15, -, hg1, -, -, -⟩ := hp ci.1
  obtain ⟨hn1, -, -, hb2, -, -⟩ := hd ci.1 im.1
  have hi : im.1 < 12 := by
    obtain ⟨h, -⟩ := List.getElem?_eq_some.1 (List.mem_enum_iff_getElem?.1 him)
    simpa [months] using h
  have hiq : ((im.1 : ℚ)) ≤ 11 := by exact_mod_cast Nat.lt_succ_iff.1 hi
  rw [mkRecord_baseline_gmv]
  have hgmv : 0 < (mkRecord ci.2 (cp ci.1) im.1 im.2 (md ci.1 im.1)).gmv := by
    rw [mkRecord_gmv]
    have hq0 : (0 : ℚ) ≤ (im.1 : ℚ) / 11 := by positivity
    have hq1 : ((im.1 : ℚ)) / 11 ≤ 1 := by
      rw [div_le_one (by norm_num : (0 : ℚ) < 11)]
      exact hiq
    have htrend : 0 < 1 + (im.1 : ℚ) / 11 * ((cp ci.1).growth_trend - 1) := by
      rcases le_or_lt 1 (cp ci.1).growth_trend with h | h
      · nlinarith [mul_nonneg hq0 (sub_nonneg.2 h)]
      · nlinarith [mul_nonneg (sub_nonneg.2 hq1) (sub_nonneg.2 h.le)]
    have hbase : (0 : ℚ) < (cp ci.1).base_gmv := lt_of_lt_of_le (by norm_num) h15
    have hnoise : (0 : ℚ) < (md ci.1 im.1).noise := lt_of_lt_of_le (by norm_num) hn1
    exact mul_pos (mul_pos hbase htrend) hnoise
  exact mul_lt_of_lt_one_right hgmv (lt_trans hb2 (by norm_num))

/-- C2 counterexample: no draw of the generator's random source (each
call inside its `np.random.uniform` range) yields a generated record
with `baseline_gmv ≥ gmv` — `baseline_gmv` is not independently sampled
but is `gmv` times a factor below 1. -/
theorem baseline_ge_gmv_impossible :
    ¬ ∃ (cp : ℕ → ClientParams) (md : ℕ → ℕ → MonthDraws),
        (∀ i, ValidParams (cp i)) ∧ (∀ i j, ValidDraws (md i j)) ∧
        ∃ r ∈ generate_data cp md, r.gmv ≤ r.baseline_gmv := by
  rintro ⟨cp, md, hp, hd, r, hr, hge⟩
  exact absurd hge (not_le.2 (baseline_lt_gmv cp md hp hd r hr))

/-- C2 amended: `baseline_gmv` is derived as `gmv` times a fresh factor
drawn from `[0.6, 0.8)`, so every generated record satisfies
`baseline_gmv < gmv`; the invariant is structurally guaranteed by the
sampling, not by an explicit check. -/
theorem baseline_lt_gmv_always (cp : ℕ → ClientParams)
    (md : ℕ → ℕ → MonthDraws) (hp : ∀ i, ValidParams (cp i))
    (hd : ∀ i j, ValidDraws (md i j)) :
    ∀ r ∈ generate_data cp md, r.baseline_gmv < r.gmv :=
  fun r hr => baseline_lt_gmv cp md hp hd r hr

/-- Witness for amended C2 at the concrete in-range draws `cp0`/`md0`. -/
theorem baseline_lt_gmv_always_witness : r0.baseline_gmv < r0.gmv :=
  baseline_lt_gmv_always cp0 md0 (fun _ => by norm_num [ValidParams, cp0])
    (fun _ _ => by norm_num [ValidDraws, md0]) r0 r0_mem

end ROIInsight

namespace ROIInsight

/-! ### C1 -/

/-- A synthetic record with `total_investment = 0` (the spec's own test
construction: `ad_spend = 0`, `agency_fee = 0`). -/
def zr : Record :=
  { client_name := "X", month := "Jan", month_index := 0, gmv := 100,
    baseline_gmv := 70, ad_spend := 0, agency_fee := 0, cogs := 40,
    platform_comm := 20, total_investment := 0, net_profit := 40, roi := 0 }

/-- A one-row table whose total-investment sum is zero. -/
def tZero : List Record := [zr]

/-- C1 counterexample: on the table `tZero` (total-investment sum `0`)
none of the three pipeline divisions substitutes the sentinel `0` — the
global weighted ROI, the per-client overall ROI and the per-record ROI
multiple all evaluate to the undefined (non-finite) value `none`, not to
`some 0`. -/
theorem pipeline_divisions_not_zero_sentinel :
    weighted_roi tZero ≠ some 0 ∧ overallROI tZero "X" ≠ some 0 ∧
    roi_mult zr ≠ some 0 ∧ weighted_roi tZero = none ∧
    overallROI tZero "X" = none ∧ roi_mult zr = none := by
  have h1 : weighted_roi tZero = none := by
    norm_num [weighted_roi, pyDiv, total_profit, total_invest, tZero, zr]
  have h2 : overallROI tZero "X" = none := by
    norm_num [overallROI, pyDiv, clientRows, tZero, zr]
  have h3 : roi_mult zr = none := by
    norm_num [roi_mult, pyDiv, zr]
  refine ⟨?_, ?_, ?_, h1, h2, h3⟩ <;> intro h
  · exact Option.noConfusion (h1 ▸ h)
  · exact Option.noConfusion (h2 ▸ h)
  · exact Option.noConfusion (h3 ▸ h)

/-- C1 amended: the three derived-metric divisions are unguarded — when
the relevant total-investment sum is exactly `0` each of them yields the
undefined non-finite value (`none`, the model of numpy's `inf`/`nan`,
which raises no exception) rather than the sentinel `0`. -/
theorem pipeline_divisions_undefined_on_zero (t : List Record) (c : String)
    (r : Record) (h1 : total_invest t = 0)
    (h2 : ((clientRows t c).map Record.total_investment).sum = 0)
    (h3 : r.total_investment = 0) :
    weighted_roi t = none ∧ overallROI t c = none ∧ roi_mult r = none := by
  refine ⟨?_, ?_, ?_⟩
  · simp [weighted_roi, pyDiv, h1]
  · simp [overallROI, pyDiv, h2]
  · simp [roi_mult, pyDiv, h3]

/-- Witness for amended C1 at the concrete table `tZero`. -/
theorem pipeline_divisions_undefined_on_zero_witness :
    weighted_roi tZero = none ∧ overallROI tZero "X" = none ∧
    roi_mult zr = none :=
  pipeline_divisions_undefined_on_zero tZero "X" zr
    (by norm_num [total_invest, tZero, zr])
    (by norm_num [clientRows, tZero, zr])
    (by norm_num [zr])

/-! ### C4 -/

/-- C4: for every table and client, the growth entry the leaderboard
loop computes for that client (i) works on the client's rows sorted
ascending by `month_index` (the sorted list is a permutation of the
client's rows, pairwise ordered by `month_index`), and (ii) its growth
percentage equals the specification formula
`(last − first) / |first| × 100` when `first ≠ 0` and `0` when
`first = 0`, where `first`/`last` are the first and last `net_profit`
of the sorted rows. -/
theorem growth_pct_matches_spec (t : List Record) (c : String) :
    (sortByMonth (clientRows t c)).Perm (clientRows t c) ∧
    (sortByMonth (clientRows t c)).Pairwise
      (fun a b => a.month_index ≤ b.month_index) ∧
    (growthEntryFor t c).profit_growth_pct =
      growth_pct_spec ((sortByMonth (clientRows t c)).headI.net_profit)
        ((sortByMonth (clientRows t c)).getLastI.net_profit) := by
  refine ⟨List.mergeSort_perm _ _, ?_, ?_⟩
  · have h := @List.sorted_mergeSort Record
      (fun a b : Record => decide (a.month_index ≤ b.month_index))
      (fun a b c hab hbc => by
        simp only [decide_eq_true_eq] at *
        exact le_trans hab hbc)
      (fun a b => by
        simp only [Bool.or_eq_true, decide_eq_true_eq]
        exact Nat.le_total _ _)
      (clientRows t c)
    simpa only [decide_eq_true_eq] using h
  · by_cases h : (sortByMonth (clientRows t c)).headI.net_profit = 0 <;>
      simp [growthEntryFor, growth_pct_spec, h]

end ROIInsight

namespace ROIInsight

/-! ### C8 -/

lemma sum_map_filter_split {α M : Type _} [AddCommMonoid M] (p : α → Bool)
    (f : α → M) (l : List α) :
    ((l.filter p).map f).sum + ((l.filter fun a => !(p a)).map f).sum =
      (l.map f).sum := by
  induction l with
  | nil => simp
  | cons a l ih =>
      by_cases h : p a
      · simp [List.filter_cons, h, add_assoc]
        rw [ih]
      · simp [List.filter_cons, h, add_assoc]
        rw [add_left_comm, ih]

/-- C8: for a client whose summed `net_profit` is negative, the
cost-structure output's "Net Profit" value is exactly `0` (clamped),
while the values used elsewhere stay unclamped: the growth entry's
`net_profit_total` is still the raw (negative) sum, and the global KPI
`total_profit` still adds in the raw client sum. -/
theorem net_profit_clamp_local (t : List Record) (c : String)
    (h : ((clientRows t c).map Record.net_profit).sum < 0) :
    (costs (clientRows t c)).net_profit = 0 ∧
    (growthEntryFor t c).net_profit_total =
      ((clientRows t c).map Record.net_profit).sum ∧
    total_profit t =
      ((clientRows t c).map Record.net_profit).sum +
        ((t.filter fun r => r.client_name ≠ c).map Record.net_profit).sum := by
  refine ⟨?_, ?_, ?_⟩
  · simp only [costs]
    exact max_eq_left h.le
  · simp only [growthEntryFor, sortByMonth]
    exact ((List.mergeSort_perm (clientRows t c) _).map Record.net_profit).sum_eq
  · have := sum_map_filter_split (fun r : Record => r.client_name = c)
      Record.net_profit t
    simp only [ne_eq, decide_not]
    rw [total_profit, ← this, clientRows]

/-- A record of client "A" with negative `net_profit`. -/
def rNeg : Record :=
  { client_name := "A", month := "Jan", month_index := 0, gmv := 10,
    baseline_gmv := 7, ad_spend := 1, agency_fee := 2500, cogs := 4,
    platform_comm := 2, total_investment := 2501, net_profit := -5, roi := 0 }

/-- A record of client "B" with positive `net_profit`. -/
def rPos : Record := { rNeg with client_name := "B", net_profit := 3 }

/-- A two-client table where client "A" has negative summed profit. -/
def tNeg : List Record := [rNeg, rPos]

/-- Witness for C8 at the concrete table `tNeg`. -/
theorem net_profit_clamp_local_witness :
    (costs (clientRows tNeg "A")).net_profit = 0 ∧
    (growthEntryFor tNeg "A").net_profit_total =
      ((clientRows tNeg "A").map Record.net_profit).sum ∧
    total_profit tNeg =
      ((clientRows tNeg "A").map Record.net_profit).sum +
        ((tNeg.filter fun r => r.client_name ≠ "A").map Record.net_profit).sum :=
  net_profit_clamp_local tNeg "A" (by
    simp only [clientRows, tNeg, rNeg, rPos, List.filter_cons, List.filter_nil,
      String.reduceEq, decide_True, decide_False]
    norm_num)

/-! ### C10 -/

lemma sums_partition (l : List Record)
    (hid : ∀ r ∈ l, r.net_profit =
      r.gmv - r.cogs - r.platform_comm - r.ad_spend - r.agency_fee) :
    (l.map Record.cogs).sum + (l.map Record.platform_comm).sum +
      (l.map Record.ad_spend).sum + (l.map Record.agency_fee).sum +
      (l.map Record.net_profit).sum = (l.map Record.gmv).sum := by
  induction l with
  | nil => simp
  | cons a l ih =>
      have ha := hid a (List.mem_cons_self a l)
      have ih' := ih fun r hr => hid r (List.mem_cons_of_mem a hr)
      simp only [List.map_cons, List.sum_cons]
      linarith

/-- C10: when every row satisfies the accounting identity
`net_profit = gmv − cogs − platform_comm − ad_spend − agency_fee` (as
every generated row does), each client's five cost categories with the
*unclamped* profit sum partition the client's summed GMV exactly; and
when the client's summed profit is non-negative, the values of the
cost-structure output itself sum exactly to the client's summed GMV. -/
theorem cost_structure_partitions_gmv (t : List Record)
    (hid : ∀ r ∈ t, r.net_profit =
      r.gmv - r.cogs - r.platform_comm - r.ad_spend - r.agency_fee)
    (c : String) :
    ((clientRows t c).map Record.cogs).sum +
        ((clientRows t c).map Record.platform_comm).sum +
        ((clientRows t c).map Record.ad_spend).sum +
        ((clientRows t c).map Record.agency_fee).sum +
        ((clientRows t c).map Record.net_profit).sum =
      ((clientRows t c).map Record.gmv).sum ∧
    (0 ≤ ((clientRows t c).map Record.net_profit).sum →
      (costs (clientRows t c)).cogs + (costs (clientRows t c)).platform_comm +
          (costs (clientRows t c)).ad_spend +
          (costs (clientRows t c)).agency_fee +
          (costs (clientRows t c)).net_profit =
        ((clientRows t c).map Record.gmv).sum) := by
  have hmain := sums_partition (clientRows t c) fun r hr =>
    hid r (List.Sublist.mem hr (List.filter_sublist t))
  refine ⟨hmain, fun h0 => ?_⟩
  simp only [costs]
  rw [max_eq_right h0]
  exact hmain

/-- A one-row table built from the generator's record derivation, so the
accounting identity holds and the client's profit sum is positive. -/
def t10 : List Record := [r0]

/-- Witness for C10 at the concrete table `t10`. -/
theorem cost_structure_partitions_gmv_witness :
    ((clientRows t10 "Tasty Wok Express").map Record.cogs).sum +
        ((clientRows t10 "Tasty Wok Express").map Record.platform_comm).sum +
        ((clientRows t10 "Tasty Wok Express").map Record.ad_spend).sum +
        ((clientRows t10 "Tasty Wok Express").map Record.agency_fee).sum +
        ((clientRows t10 "Tasty Wok Express").map Record.net_profit).sum =
      ((clientRows t10 "Tasty Wok Express").map Record.gmv).sum ∧
    (costs (clientRows t10 "Tasty Wok Express")).cogs +
        (costs (clientRows t10 "Tasty Wok Express")).platform_comm +
        (costs (clientRows t10 "Tasty Wok Express")).ad_spend +
        (costs (clientRows t10 "Tasty Wok Express")).agency_fee +
        (costs (clientRows t10 "Tasty Wok Express")).net_profit =
      ((clientRows t10 "Tasty Wok Express").map Record.gmv).sum := by
  have hid : ∀ r ∈ t10, r.net_profit =
      r.gmv - r.cogs - r.platform_comm - r.ad_spend - r.agency_fee := by
    intro r hr
    simp only [t10, List.mem_singleton] at hr
    subst hr
    norm_num [r0, mkRecord, cp0, md0, agency_fee_const, comm_rate]
  exact ⟨(cost_structure_partitions_gmv t10 hid "Tasty Wok Express").1,
    (cost_structure_partitions_gmv t10 hid "Tasty Wok Express").2
      (by
        simp only [clientRows, t10, List.filter_cons, List.filter_nil,
          String.reduceEq, decide_True, decide_False, r0, mkRecord, cp0, md0]
        norm_num [agency_fee_const, comm_rate])⟩

end ROIInsight

namespace ROIInsight

/-! ### C3 -/

/-- A single-month record of client "A" with `net_profit = 5`. -/
def gA : Record :=
  { client_name := "A", month := "Jan", month_index := 0, gmv := 100,
    baseline_gmv := 70, ad_spend := 10, agency_fee := 2500, cogs := 40,
    platform_comm := 20, total_investment := 2510, net_profit := 5, roi := 0 }

/-- The same record for client "B", so both growth percentages are 0. -/
def gB : Record := { gA with client_name := "B" }

/-- A table where client "B" appears before client "A" and the two
growth percentages tie. -/
def tTie : List Record := [gB, gA]

lemma getLastI_singleton {α : Type _} [Inhabited α] (a : α) :
    ([a] : List α).getLastI = a := rfl

lemma mergeSort_pair {α : Type _} (le : α → α → Bool) (a b : α) :
    [a, b].mergeSort le = if le a b then [a, b] else [b, a] := by
  simp only [List.mergeSort]
  by_cases h : le a b <;> simp [List.merge, h]

/-- C3 counterexample: on `tTie` the two clients tie on
`profit_growth_pct` and client "B" precedes client "A" in the input's
first-appearance enumeration, yet the leaderboard lists "A" before "B" —
ties do not follow first-appearance order: the leaderboard loop
enumerates the groupby's lexicographically sorted client names, and the
stable descending sort preserves that sorted enumeration order on ties. -/
theorem leaderboard_tie_not_first_appearance :
    (growthEntryFor tTie "A").profit_growth_pct =
      (growthEntryFor tTie "B").profit_growth_pct ∧
    uniqueFirst tTie = ["B", "A"] ∧
    (growth_df tTie).map GrowthEntry.client_name = ["A", "B"] ∧
    (growth_df tTie).map GrowthEntry.client_name ≠ ["B", "A"] := by
  have hA : growthEntryFor tTie "A" = ⟨"A", 0, 5⟩ := by
    simp only [growthEntryFor, clientRows, tTie, gA, gB, List.filter_cons,
      List.filter_nil, String.reduceEq, decide_True, decide_False,
      sortByMonth, List.mergeSort_singleton, if_true, List.headI,
      getLastI_singleton, List.map_cons, List.map_nil, List.sum_cons,
      List.sum_nil, GrowthEntry.mk.injEq]
    norm_num [getLastI_singleton]
  have hB : growthEntryFor tTie "B" = ⟨"B", 0, 5⟩ := by
    simp only [growthEntryFor, clientRows, tTie, gA, gB, List.filter_cons,
      List.filter_nil, String.reduceEq, decide_True, decide_False,
      sortByMonth, List.mergeSort_singleton, if_true, List.headI,
      getLastI_singleton, List.map_cons, List.map_nil, List.sum_cons,
      List.sum_nil, GrowthEntry.mk.injEq]
    norm_num [getLastI_singleton]
  have hu : uniqueFirst tTie = ["B", "A"] := by decide
  have hg : groupbyClients tTie = ["A", "B"] := by
    rw [groupbyClients, hu, mergeSort_pair]
    decide
  have hlist : growth_list tTie =
      [growthEntryFor tTie "A", growthEntryFor tTie "B"] := by
    simp only [growth_list]
    rw [hg]
    rfl
  have hsorted : (growth_list tTie).mergeSort
      (fun a b => b.profit_growth_pct ≤ a.profit_growth_pct) =
      growth_list tTie := by
    apply List.mergeSort_of_sorted
    rw [hlist, hA, hB]
    refine List.pairwise_cons.2 ⟨?_, ?_⟩
    · intro e he
      simp only [List.mem_singleton] at he
      subst he
      simp
    · simp
  have hdf : growth_df tTie =
      [growthEntryFor tTie "A", growthEntryFor tTie "B"] := by
    simp only [growth_df]
    rw [hsorted, hlist]
    rfl
  refine ⟨by rw [hA, hB], by decide, ?_, ?_⟩
  · rw [hdf, hA, hB]
    rfl
  · rw [hdf, hA, hB]
    decide

/-- C3 amended: for every table the growth leaderboard is the first five
entries of a stable descending reordering of the growth list — some
list `l` that is a permutation of `growth_list t`, is pairwise
descending in `profit_growth_pct`, and keeps entries with tied
`profit_growth_pct` in their `growth_list` order (the groupby's sorted
client-name enumeration, which need not be the input's first-appearance
order), with `growth_df t = l.take 5`; the `top_n` is fixed at 5 in the
code. -/
theorem growth_leaderboard_sorted_top5 (t : List Record) :
    ∃ l : List GrowthEntry, l.Perm (growth_list t) ∧
      l.Pairwise (fun a b => b.profit_growth_pct ≤ a.profit_growth_pct) ∧
      (∀ a b : GrowthEntry, a.profit_growth_pct = b.profit_growth_pct →
        [a, b].Sublist (growth_list t) → [a, b].Sublist l) ∧
      growth_df t = l.take 5 := by
  have htrans : ∀ a b c : GrowthEntry,
      decide (b.profit_growth_pct ≤ a.profit_growth_pct) = true →
      decide (c.profit_growth_pct ≤ b.profit_growth_pct) = true →
      decide (c.profit_growth_pct ≤ a.profit_growth_pct) = true := by
    intro a b c hab hbc
    simp only [decide_eq_true_eq] at *
    exact le_trans hbc hab
  have htotal : ∀ a b : GrowthEntry,
      (decide (b.profit_growth_pct ≤ a.profit_growth_pct) ||
        decide (a.profit_growth_pct ≤ b.profit_growth_pct)) = true := by
    intro a b
    simp only [Bool.or_eq_true, decide_eq_true_eq]
    exact le_total _ _
  refine ⟨(growth_list t).mergeSort
    fun a b => b.profit_growth_pct ≤ a.profit_growth_pct,
    List.mergeSort_perm _ _, ?_, ?_, rfl⟩
  · have h := @List.sorted_mergeSort GrowthEntry
      (fun a b : GrowthEntry =>
        decide (b.profit_growth_pct ≤ a.profit_growth_pct))
      htrans htotal (growth_list t)
    simpa only [decide_eq_true_eq] using h
  · intro a b hab hsub
    refine List.sublist_mergeSort htrans htotal ?_ hsub
    refine List.pairwise_cons.2 ⟨?_, by simp⟩
    intro e he
    simp only [List.mem_singleton] at he
    subst he
    simp only [decide_eq_true_eq]
    exact le_of_eq hab.symm
